import Mathlib

/-!
Verification of the Bitpanda Wallets integration (custom_components/bitpanda_wallets).

The development shallowly embeds the pure parsing and coordination logic of
`sensor.py` and `config_flow.py`:

- balances and prices are exact rationals (Python floats in the source);
- the relevant parts of a JSON response body are typed records whose fields are
  `Option`-valued where the source uses `dict.get` with a default;
- the HTTP fetches of one poll cycle are passed in as `Except` results, so the
  `try/except/finally` control flow of `_async_update_data` becomes explicit
  state passing.
-/

namespace BitpandaWallets

/-! ## Rounding

Python `round(x, 2)` rounds half to even; on exact rationals this is modelled
by `pyRound2`. -/

/-- Round a rational to the nearest integer, ties to even (Python `round`). -/
def roundHalfEven (x : ℚ) : ℤ :=
  if x - ⌊x⌋ < 1/2 then ⌊x⌋
  else if 1/2 < x - ⌊x⌋ then ⌊x⌋ + 1
  else if ⌊x⌋ % 2 = 0 then ⌊x⌋ else ⌊x⌋ + 1

/-- Round to 2 decimal places, as Python `round(x, 2)` on an exact value. -/
def pyRound2 (x : ℚ) : ℚ := (roundHalfEven (x * 100) : ℚ) / 100

/-! ## Ticker data

`GET /ticker` returns `{ SYMBOL: { CURRENCY: price } }`; modelled as nested
association lists. -/

/-- The ticker table: symbol to (currency to price). -/
abbrev Ticker := List (String × List (String × ℚ))

/-- The entry `ticker_data[symbol][currency]` when both keys are present. -/
def tickerEntry (tk : Ticker) (symbol currency : String) : Option ℚ :=
  (tk.lookup symbol).bind fun m => m.lookup currency

/-- Embeds `float(self.ticker_data.get(currency, {}).get(self.currency, 0))`
from sensor.py lines 157 and 187: a missing symbol or missing target currency
yields price 0. -/
def tickerPrice (tk : Ticker) (symbol currency : String) : ℚ :=
  (tickerEntry tk symbol currency).getD 0

/-! ## Asset wallets -/

/-- One wallet record inside the `/asset-wallets` response. The fields mirror
the keys read from `wallet.get('attributes', {})`; `none` models a missing key
(an entirely missing `attributes` dict is the record with all fields `none`). -/
structure AssetWallet where
  balance : Option ℚ
  cryptocoin_symbol : Option String
  name : Option String
deriving DecidableEq

/-- Embeds `float(wallet_attrs.get('balance', 0.0))`. -/
def AssetWallet.balanceF (w : AssetWallet) : ℚ := w.balance.getD 0

/-- Embeds `wallet_attrs.get('cryptocoin_symbol', '')`. -/
def AssetWallet.symbolF (w : AssetWallet) : String := w.cryptocoin_symbol.getD ""

/-- Embeds `wallet_attrs.get('name', '')`. -/
def AssetWallet.nameF (w : AssetWallet) : String := w.name.getD ""

/-- Python `str.endswith`, as a suffix test on the character list. -/
def strEndsWith (s suffix : String) : Bool := suffix.data.isSuffixOf s.data

/-- Python `str.lower`, as a character-wise map on the character list. -/
def strToLower (s : String) : String := ⟨s.data.map Char.toLower⟩

/-- Embeds `currency.endswith('2L') or currency.endswith('1S')` from
sensor.py line 154. -/
def is_leverage (symbol : String) : Bool :=
  strEndsWith symbol "2L" || strEndsWith symbol "1S"

/-- One entry of the `wallets_info` list built by `_parse_asset_type`:
`{"name": ..., "balance_token": ..., "balance_<cur>": round(..., 2),
"currency": ...}`. -/
structure HoldingInfo where
  name : String
  balance_token : ℚ
  balance_converted : ℚ
  currency : String
deriving DecidableEq

/-- The `wallets_info` entry built for one wallet (sensor.py lines 157 to 166
and 186 to 196): the per-holding converted value is rounded to 2 decimals. -/
def mkHoldingInfo (tk : Ticker) (target : String) (w : AssetWallet) : HoldingInfo :=
  { name := w.nameF
    balance_token := w.balanceF
    balance_converted := pyRound2 (w.balanceF * tickerPrice tk w.symbolF target)
    currency := w.symbolF }

/-- The loop of the `CRYPTOCOIN`/`LEVERAGE` branch of `_parse_asset_type`
(sensor.py lines 149 to 166), returning `(total_balance, wallets_info)`.
The Python loop accumulates the total left to right; here the same sum is
built by recursion, and the holdings list keeps the source order. -/
def parseCryptoWallets (tk : Ticker) (target wallet_type : String) :
    List AssetWallet → ℚ × List HoldingInfo
  | [] => (0, [])
  | w :: ws =>
    let rest := parseCryptoWallets tk target wallet_type ws
    if 0 < w.balanceF then
      if (wallet_type == "LEVERAGE" && is_leverage w.symbolF) ||
          (wallet_type == "CRYPTOCOIN" && !is_leverage w.symbolF) then
        (w.balanceF * tickerPrice tk w.symbolF target + rest.1,
          mkHoldingInfo tk target w :: rest.2)
      else rest
    else rest

/-- The loop of the generic branch of `_parse_asset_type` (sensor.py lines 182
to 196), returning `(total_balance, wallets_info)`. -/
def parseGenericWallets (tk : Ticker) (target : String) :
    List AssetWallet → ℚ × List HoldingInfo
  | [] => (0, [])
  | w :: ws =>
    let rest := parseGenericWallets tk target ws
    if 0 < w.balanceF then
      (w.balanceF * tickerPrice tk w.symbolF target + rest.1,
        mkHoldingInfo tk target w :: rest.2)
    else rest

/-- The `attributes` object of the `/asset-wallets` response body
(`response_json.get('data', {}).get('attributes', {})`). Each sub-category
value stands for `<subtree>.get('attributes', {}).get('wallets', [])`, with
any missing level collapsed to the empty wallet list; `flat` holds the
direct sub-category keys, and `security`, `commodity` and `index` the
intermediate grouping dicts probed by `_parse_asset_type`. -/
structure AssetAttributes where
  cryptocoin : List AssetWallet
  flat : List (String × List AssetWallet)
  security : List (String × List AssetWallet)
  commodity : List (String × List AssetWallet)
  index : List (String × List AssetWallet)
deriving DecidableEq

/-- The lookup chain of sensor.py lines 169 to 179: try the flat key, then
the `security`, `commodity` and `index` grouping keys in that order, first
match wins, else the empty wallet list. -/
def lookupWalletData (attrs : AssetAttributes) (wallet_type_lower : String) :
    List AssetWallet :=
  match attrs.flat.lookup wallet_type_lower with
  | some ws => ws
  | none =>
    match attrs.security.lookup wallet_type_lower with
    | some ws => ws
    | none =>
      match attrs.commodity.lookup wallet_type_lower with
      | some ws => ws
      | none =>
        match attrs.index.lookup wallet_type_lower with
        | some ws => ws
        | none => []

/-- Embeds `_parse_asset_type` (sensor.py lines 138 to 198), applied to the
`attributes` object of the response. -/
def parse_asset_type (tk : Ticker) (target : String) (attrs : AssetAttributes)
    (wallet_type : String) : ℚ × List HoldingInfo :=
  if wallet_type == "CRYPTOCOIN" || wallet_type == "LEVERAGE" then
    parseCryptoWallets tk target wallet_type attrs.cryptocoin
  else
    parseGenericWallets tk target (lookupWalletData attrs (strToLower wallet_type))

/-! ## Fiat wallets -/

/-- One record of the `/fiatwallets` response `data` list; fields mirror the
keys read from `wallet.get('attributes', {})`. -/
structure FiatWallet where
  fiat_symbol : Option String
  balance : Option ℚ
deriving DecidableEq

/-- Embeds `attributes.get('fiat_symbol', '')`. -/
def FiatWallet.symbolF (w : FiatWallet) : String := w.fiat_symbol.getD ""

/-- Embeds `float(attributes.get('balance', 0.0))`. -/
def FiatWallet.balanceF (w : FiatWallet) : ℚ := w.balance.getD 0

/-- Embeds `_parse_fiat_wallet` (sensor.py lines 127 to 136): return the
balance of the first record whose `fiat_symbol` equals the configured
currency, else 0.0. -/
def parse_fiat_wallet (currency : String) : List FiatWallet → ℚ
  | [] => 0
  | w :: ws =>
    if w.symbolF = currency then w.balanceF else parse_fiat_wallet currency ws

/-- One per-category entry of the coordinator data dict:
`{"total_balance": ..., "wallets": ...}`. -/
structure CategoryOut where
  total_balance : ℚ
  wallets : List HoldingInfo
deriving DecidableEq

/-- The `FIAT` entry built in `_async_update_data` (sensor.py lines 113 to
114): `data["FIAT"] = {"total_balance": fiat_balance, "wallets": []}`. -/
def fiatCategoryOut (currency : String) (resp : List FiatWallet) : CategoryOut :=
  { total_balance := parse_fiat_wallet currency resp, wallets := [] }

/-! ## The update coordinator

`_async_update_data` (sensor.py lines 64 to 125) issues up to three fetches
(ticker, asset wallets when an asset category is selected, fiat wallets when
`FIAT` is selected), builds the data dict, and converts any exception to
`UpdateFailed`; the `finally` block advances `next_update` on success and
failure alike. The fetches are modelled as `Except` inputs. -/

/-- A fetch step failure: a transport error, or a non-success HTTP status
(raised by `response.raise_for_status()`). -/
inductive FetchError where
  | transport
  | httpStatus (code : ℕ)
deriving DecidableEq

/-- The error raised by `_async_update_data`: every caught exception is
re-raised as `UpdateFailed` (sensor.py lines 120 to 122). -/
inductive UpdateError where
  | updateFailed (inner : FetchError)
deriving DecidableEq

/-- The results of the (up to) three network fetches of one poll cycle. -/
structure FetchResults where
  ticker : Except FetchError Ticker
  assets : Except FetchError AssetAttributes
  fiat : Except FetchError (List FiatWallet)

/-- The set literal of sensor.py line 84. -/
def assetTypes : List String :=
  ["STOCK", "INDEX", "METAL", "CRYPTOCOIN", "LEVERAGE", "ETF", "ETC"]

/-- The keys of `WALLET_TYPES` in const.py. -/
def walletTypeKeys : List String :=
  ["FIAT", "CRYPTOCOIN", "LEVERAGE", "INDEX", "STOCK", "ETF", "ETC", "METAL"]

/-- The data dict returned by a successful `_async_update_data`: the
per-category entries, and the `last_updated` timestamp kept as a separate
field. -/
structure SnapshotData where
  categories : List (String × CategoryOut)
  last_updated : ℕ
deriving DecidableEq

/-- Embeds `selected_asset_types = set(self.selected_wallets) & asset_types`
(sensor.py line 85): `filter` plus `dedup` on the selection list. -/
def selectedAssetTypes (selected : List String) : List String :=
  (selected.filter fun wt => assetTypes.contains wt).dedup

/-- Embeds the body of `_async_update_data`: fetch the ticker (fatal on
failure), fetch `/asset-wallets` when asset categories are selected and add
one entry per selected asset category, fetch `/fiatwallets` when `FIAT` is
selected, stamp `last_updated`; any fetch failure is raised as
`UpdateFailed`. -/
def updateData (currency : String) (selected : List String) (r : FetchResults)
    (now : ℕ) : Except UpdateError SnapshotData :=
  match r.ticker with
  | .error e => .error (.updateFailed e)
  | .ok tk =>
    let assetPart : Except UpdateError (List (String × CategoryOut)) :=
      if (selectedAssetTypes selected).isEmpty then .ok []
      else
        match r.assets with
        | .error e => .error (.updateFailed e)
        | .ok attrs =>
          .ok ((selectedAssetTypes selected).map fun wt =>
            let res := parse_asset_type tk currency attrs wt
            (wt, { total_balance := res.1, wallets := res.2 }))
    match assetPart with
    | .error e => .error e
    | .ok ap =>
      if "FIAT" ∈ selected then
        match r.fiat with
        | .error e => .error (.updateFailed e)
        | .ok fw =>
          .ok { categories := ap ++ [("FIAT", fiatCategoryOut currency fw)],
                last_updated := now }
      else .ok { categories := ap, last_updated := now }

/-- The observable coordinator state: the published data (if any prior cycle
succeeded) and `self.next_update`. -/
structure CoordState where
  data : Option SnapshotData
  next_update : ℕ
deriving DecidableEq

/-- One poll cycle. On success the returned dict replaces the published data;
when `_async_update_data` raises `UpdateFailed` the previously published data
is kept (the `DataUpdateCoordinator` contract the integration relies on); the
`finally` block (sensor.py lines 123 to 125) sets
`next_update = now + interval` in both cases. -/
def coordinatorStep (st : CoordState) (currency : String) (selected : List String)
    (r : FetchResults) (now interval : ℕ) : CoordState :=
  match updateData currency selected r now with
  | .ok d => { data := some d, next_update := now + interval }
  | .error _ => { data := st.data, next_update := now + interval }

/-! ## Config flow credential validation

`_test_api_key` (config_flow.py lines 18 to 45) issues one authenticated
request; its observable input is the HTTP status with whether the JSON body
has a `data` key, or a transport error. -/

/-- The outcome of the validation request. -/
inductive ApiResult where
  | response (status : ℕ) (hasDataKey : Bool)
  | transportError
deriving DecidableEq

/-- Embeds `_test_api_key`: `True` exactly for a 200 response whose body has
a `data` key; any other status, payload shape or transport error gives
`False`. -/
def test_api_key : ApiResult → Bool
  | .response status hasDataKey => if status = 200 then hasDataKey else false
  | .transportError => false

/-- The log message `_test_api_key` emits on each failure branch (the static
format strings of config_flow.py lines 38, 40, 42 and 44); `none` on
success. -/
def test_api_key_log : ApiResult → Option String
  | .response status hasDataKey =>
    if status = 200 then
      if hasDataKey then none else some "Unexpected response data"
    else if status = 401 then some "Unauthorized access - Invalid API key."
    else some "Unexpected response status"
  | .transportError => some "API key validation error"

/-- The user-facing error set by `async_step_user` (config_flow.py line 66):
`errors["base"] = "invalid_api_key"` whenever `_test_api_key` returned
`False`, whatever the failure mode. -/
def async_step_user_error (r : ApiResult) : Option String :=
  if test_api_key r then none else some "invalid_api_key"

/-! ## Characterizations of the parse loops -/

/-- The inclusion test of the generic branch: `balance_token > 0`. -/
def keepGeneric (w : AssetWallet) : Bool := decide (0 < w.balanceF)

/-- The inclusion test of the `CRYPTOCOIN`/`LEVERAGE` branch: positive
balance and the leverage check matching the requested category. -/
def keepCrypto (wallet_type : String) (w : AssetWallet) : Bool :=
  decide (0 < w.balanceF) &&
    ((wallet_type == "LEVERAGE" && is_leverage w.symbolF) ||
      (wallet_type == "CRYPTOCOIN" && !is_leverage w.symbolF))

/-- The unrounded converted value of one wallet. -/
def convValue (tk : Ticker) (target : String) (w : AssetWallet) : ℚ :=
  w.balanceF * tickerPrice tk w.symbolF target

theorem parseGenericWallets_eq (tk : Ticker) (target : String)
    (ws : List AssetWallet) :
    parseGenericWallets tk target ws =
      (((ws.filter keepGeneric).map (convValue tk target)).sum,
        (ws.filter keepGeneric).map (mkHoldingInfo tk target)) := by
  induction ws with
  | nil => rfl
  | cons w ws ih =>
    by_cases h : 0 < w.balanceF
    · simp [parseGenericWallets, ih, List.filter_cons, keepGeneric, h, convValue]
    · simp [parseGenericWallets, ih, List.filter_cons, keepGeneric, h]

theorem parseCryptoWallets_eq (tk : Ticker) (target wallet_type : String)
    (ws : List AssetWallet) :
    parseCryptoWallets tk target wallet_type ws =
      (((ws.filter (keepCrypto wallet_type)).map (convValue tk target)).sum,
        (ws.filter (keepCrypto wallet_type)).map (mkHoldingInfo tk target)) := by
  induction ws with
  | nil => rfl
  | cons w ws ih =>
    by_cases h : 0 < w.balanceF
    · by_cases hl : ((wallet_type == "LEVERAGE" && is_leverage w.symbolF) ||
          (wallet_type == "CRYPTOCOIN" && !is_leverage w.symbolF)) = true
      · simp [parseCryptoWallets, ih, List.filter_cons, keepCrypto, h, hl, convValue]
      · simp [parseCryptoWallets, ih, List.filter_cons, keepCrypto, h, hl]
    · simp [parseCryptoWallets, ih, List.filter_cons, keepCrypto, h]

theorem keepCrypto_leverage (w : AssetWallet) :
    keepCrypto "LEVERAGE" w = (decide (0 < w.balanceF) && is_leverage w.symbolF) := by
  simp [keepCrypto]

theorem keepCrypto_cryptocoin (w : AssetWallet) :
    keepCrypto "CRYPTOCOIN" w = (decide (0 < w.balanceF) && !is_leverage w.symbolF) := by
  simp [keepCrypto]

/-! ## Helper lemmas for the fiat scan -/

theorem parse_fiat_wallet_no_match (currency : String) (resp : List FiatWallet)
    (h : ∀ v ∈ resp, v.symbolF ≠ currency) :
    parse_fiat_wallet currency resp = 0 := by
  induction resp with
  | nil => rfl
  | cons w ws ih =>
    have hw := h w (List.mem_cons_self w ws)
    simp only [parse_fiat_wallet, hw, if_false]
    exact ih fun v hv => h v (List.mem_cons_of_mem w hv)

theorem parse_fiat_wallet_first_match (currency : String)
    (pre post : List FiatWallet) (w : FiatWallet)
    (hpre : ∀ v ∈ pre, v.symbolF ≠ currency) (hw : w.symbolF = currency) :
    parse_fiat_wallet currency (pre ++ w :: post) = w.balanceF := by
  induction pre with
  | nil => simp [parse_fiat_wallet, hw]
  | cons v vs ih =>
    have hv := hpre v (List.mem_cons_self v vs)
    simp only [List.cons_append, parse_fiat_wallet, hv, if_false]
    exact ih fun u hu => hpre u (List.mem_cons_of_mem v hu)

/-! ## Claims about the fiat scan (C1, C10) -/

/-- Concrete fiat response with one matching EUR record. -/
def fiatRespExample : List FiatWallet :=
  [{ fiat_symbol := some "EUR", balance := some (123.45 : ℚ) }]

/-- Claim C1 fails as stated: the response holds a record whose currency code
equals the target currency, yet the FIAT category output does not contain
exactly one holding — its holdings list is always empty, because
`_async_update_data` builds `{"total_balance": fiat_balance, "wallets": []}`. -/
theorem c1_counterexample :
    (∃ w ∈ fiatRespExample, FiatWallet.symbolF w = "EUR") ∧
      ¬ (fiatCategoryOut "EUR" fiatRespExample).wallets.length = 1 := by
  refine ⟨⟨{ fiat_symbol := some "EUR", balance := some (123.45 : ℚ) }, ?_, rfl⟩, ?_⟩
  · simp [fiatRespExample]
  · simp [fiatCategoryOut]

/-- Claim C1 (amended): fiat normalization always returns an empty holdings
list; when no record matches the target currency the total is 0.0, and when
the first matching record has balance b the total is b verbatim, with no
price conversion. -/
theorem c1_amended (currency : String) (resp pre post : List FiatWallet)
    (w : FiatWallet) :
    (fiatCategoryOut currency resp).wallets = [] ∧
    ((∀ v ∈ resp, FiatWallet.symbolF v ≠ currency) →
      (fiatCategoryOut currency resp).total_balance = 0) ∧
    ((∀ v ∈ pre, FiatWallet.symbolF v ≠ currency) →
      FiatWallet.symbolF w = currency →
      (fiatCategoryOut currency (pre ++ w :: post)).total_balance = w.balanceF) := by
  refine ⟨rfl, ?_, ?_⟩
  · intro h
    exact parse_fiat_wallet_no_match currency resp h
  · intro hpre hw
    exact parse_fiat_wallet_first_match currency pre post w hpre hw

/-- Witness for `c1_amended` at a concrete input. -/
theorem c1_amended_witness :
    (fiatCategoryOut "EUR" ([] : List FiatWallet)).wallets = [] ∧
    (fiatCategoryOut "EUR" ([] : List FiatWallet)).total_balance = 0 ∧
    (fiatCategoryOut "EUR"
      ([] ++ ({ fiat_symbol := some "EUR", balance := some (5 : ℚ) } : FiatWallet)
        :: [])).total_balance = 5 := by
  have h := c1_amended "EUR" [] [] []
    { fiat_symbol := some "EUR", balance := some (5 : ℚ) }
  refine ⟨h.1, h.2.1 ?_, ?_⟩
  · intro v hv
    cases hv
  · have h5 := h.2.2 (fun v hv => by cases hv) rfl
    simpa [FiatWallet.balanceF] using h5

/-- Claim C10: the fiat scan returns the balance of the first record whose
`fiat_symbol` equals the configured currency — also when that balance is zero
or negative — and the records after the first match never influence the
result. -/
theorem c10_first_match (currency : String) (pre post : List FiatWallet)
    (w : FiatWallet)
    (hpre : ∀ v ∈ pre, FiatWallet.symbolF v ≠ currency)
    (hw : FiatWallet.symbolF w = currency) :
    parse_fiat_wallet currency (pre ++ w :: post) = w.balanceF ∧
    (∀ post', parse_fiat_wallet currency (pre ++ w :: post') =
        parse_fiat_wallet currency (pre ++ w :: post)) := by
  refine ⟨parse_fiat_wallet_first_match currency pre post w hpre hw, ?_⟩
  intro post'
  rw [parse_fiat_wallet_first_match currency pre post' w hpre hw,
    parse_fiat_wallet_first_match currency pre post w hpre hw]

/-- Witness for `c10_first_match`: a duplicate EUR record with balance 100
after a first EUR record with balance -5 is ignored. -/
theorem c10_first_match_witness :
    parse_fiat_wallet "EUR"
      ([] ++ ({ fiat_symbol := some "EUR", balance := some (-5 : ℚ) } : FiatWallet)
        :: [{ fiat_symbol := some "EUR", balance := some (100 : ℚ) }]) = -5 := by
  have h := c10_first_match "EUR" []
    [{ fiat_symbol := some "EUR", balance := some (100 : ℚ) }]
    { fiat_symbol := some "EUR", balance := some (-5 : ℚ) }
    (fun v hv => by cases hv) rfl
  simpa [FiatWallet.balanceF] using h.1

/-! ## Claim about credential validation (C2) -/

/-- Claim C2 fails as stated: an HTTP 401 and an HTTP 500 validation failure
produce the same user-facing config-flow error `"invalid_api_key"`, not two
distinct messages. -/
theorem c2_counterexample :
    async_step_user_error (ApiResult.response 401 false) =
        async_step_user_error (ApiResult.response 500 false) ∧
      async_step_user_error (ApiResult.response 401 false) =
        some "invalid_api_key" := by
  constructor <;> rfl

/-- Claim C2 (amended): the failure modes are distinguished only in the log
messages of `_test_api_key` — HTTP 401 logs the unauthorized message, any
other non-success status logs a different generic message, a transport error
a third — while the user-facing error set by `async_step_user` is the single
`"invalid_api_key"` for every failure mode. -/
theorem c2_amended (s : ℕ) (b : Bool) (r : ApiResult) :
    test_api_key_log (ApiResult.response 401 b) =
        some "Unauthorized access - Invalid API key." ∧
    (s ≠ 200 → s ≠ 401 →
      test_api_key_log (ApiResult.response s b) =
        some "Unexpected response status") ∧
    test_api_key_log ApiResult.transportError =
        some "API key validation error" ∧
    ("Unauthorized access - Invalid API key." : String) ≠
        "Unexpected response status" ∧
    (test_api_key r = false →
      async_step_user_error r = some "invalid_api_key") := by
  refine ⟨rfl, ?_, rfl, ?_, ?_⟩
  · intro h200 h401
    simp [test_api_key_log, h200, h401]
  · decide
  · intro h
    simp [async_step_user_error, h]

/-- Witness for `c2_amended` at concrete inputs. -/
theorem c2_amended_witness :
    test_api_key_log (ApiResult.response 500 false) =
        some "Unexpected response status" ∧
      async_step_user_error ApiResult.transportError = some "invalid_api_key" := by
  have h := c2_amended 500 false ApiResult.transportError
  exact ⟨h.2.1 (by decide) (by decide), h.2.2.2.2 rfl⟩

/-! ## Claims about the asset parse (C4, C5, C6, C7, C9) -/

theorem keepCrypto_length_partition (l : List AssetWallet) :
    (l.filter (keepCrypto "LEVERAGE")).length +
        (l.filter (keepCrypto "CRYPTOCOIN")).length =
      (l.filter keepGeneric).length := by
  induction l with
  | nil => rfl
  | cons w ws ih =>
    rw [List.filter_cons, List.filter_cons, List.filter_cons,
      keepCrypto_leverage, keepCrypto_cryptocoin]
    by_cases hb : 0 < w.balanceF
    · by_cases hl : is_leverage w.symbolF = true
      · simp [keepGeneric, hb, hl]
        omega
      · simp [keepGeneric, hb, hl]
        omega
    · simp [keepGeneric, hb]
      exact ih

/-- Claim C4: over the combined crypto wallet list, a positive-balance wallet
is emitted by the `LEVERAGE` category exactly when its symbol ends with the
leverage marker (`2L` or `1S`) and by the `CRYPTOCOIN` category exactly when
it does not; the two categories partition the positive-balance wallets
exhaustively and disjointly. -/
theorem c4_leverage_partition (tk : Ticker) (target : String)
    (attrs : AssetAttributes) :
    (parse_asset_type tk target attrs "LEVERAGE").2 =
      (attrs.cryptocoin.filter (keepCrypto "LEVERAGE")).map
        (mkHoldingInfo tk target) ∧
    (parse_asset_type tk target attrs "CRYPTOCOIN").2 =
      (attrs.cryptocoin.filter (keepCrypto "CRYPTOCOIN")).map
        (mkHoldingInfo tk target) ∧
    (∀ w : AssetWallet,
      keepCrypto "LEVERAGE" w =
          (decide (0 < w.balanceF) && is_leverage w.symbolF) ∧
        keepCrypto "CRYPTOCOIN" w =
          (decide (0 < w.balanceF) && !is_leverage w.symbolF)) ∧
    (attrs.cryptocoin.filter (keepCrypto "LEVERAGE")).length +
        (attrs.cryptocoin.filter (keepCrypto "CRYPTOCOIN")).length =
      (attrs.cryptocoin.filter keepGeneric).length := by
  have hL : parse_asset_type tk target attrs "LEVERAGE" =
      parseCryptoWallets tk target "LEVERAGE" attrs.cryptocoin := rfl
  have hC : parse_asset_type tk target attrs "CRYPTOCOIN" =
      parseCryptoWallets tk target "CRYPTOCOIN" attrs.cryptocoin := rfl
  refine ⟨?_, ?_, ?_, keepCrypto_length_partition attrs.cryptocoin⟩
  · rw [hL, parseCryptoWallets_eq]
  · rw [hC, parseCryptoWallets_eq]
  · intro w
    exact ⟨keepCrypto_leverage w, keepCrypto_cryptocoin w⟩

/-- Claim C5: the non-crypto branch locates the sub-tree by probing the flat
key, then the `security`, `commodity` and `index` grouping keys, in that
order, first match winning; when no path matches, the parse returns the zero
result `(0, [])` rather than failing. -/
theorem c5_lookup_paths (tk : Ticker) (target wallet_type wtl : String)
    (attrs : AssetAttributes) (ws : List AssetWallet) :
    (attrs.flat.lookup wtl = some ws → lookupWalletData attrs wtl = ws) ∧
    (attrs.flat.lookup wtl = none → attrs.security.lookup wtl = some ws →
      lookupWalletData attrs wtl = ws) ∧
    (attrs.flat.lookup wtl = none → attrs.security.lookup wtl = none →
      attrs.commodity.lookup wtl = some ws → lookupWalletData attrs wtl = ws) ∧
    (attrs.flat.lookup wtl = none → attrs.security.lookup wtl = none →
      attrs.commodity.lookup wtl = none → attrs.index.lookup wtl = some ws →
      lookupWalletData attrs wtl = ws) ∧
    (attrs.flat.lookup wtl = none → attrs.security.lookup wtl = none →
      attrs.commodity.lookup wtl = none → attrs.index.lookup wtl = none →
      lookupWalletData attrs wtl = []) ∧
    (wallet_type ≠ "CRYPTOCOIN" → wallet_type ≠ "LEVERAGE" →
      lookupWalletData attrs (strToLower wallet_type) = [] →
      parse_asset_type tk target attrs wallet_type = (0, [])) := by
  refine ⟨?_, ?_, ?_, ?_, ?_, ?_⟩
  · intro h1
    simp [lookupWalletData, h1]
  · intro h1 h2
    simp [lookupWalletData, h1, h2]
  · intro h1 h2 h3
    simp [lookupWalletData, h1, h2, h3]
  · intro h1 h2 h3 h4
    simp [lookupWalletData, h1, h2, h3, h4]
  · intro h1 h2 h3 h4
    simp [lookupWalletData, h1, h2, h3, h4]
  · intro hC hL hempty
    simp [parse_asset_type, hC, hL, hempty, parseGenericWallets]

/-- Asset attributes with every sub-category empty. -/
def emptyAttrs : AssetAttributes :=
  { cryptocoin := [], flat := [], security := [], commodity := [], index := [] }

/-- A stock wallet used in the C5 witness. -/
def stockWalletExample : AssetWallet :=
  { balance := some (3 : ℚ), cryptocoin_symbol := some "AAPL", name := some "Apple" }

/-- Asset attributes with one flat `stock` sub-category. -/
def stockAttrsExample : AssetAttributes :=
  { cryptocoin := [], flat := [("stock", [stockWalletExample])],
    security := [], commodity := [], index := [] }

/-- Witness for `c5_lookup_paths` at concrete inputs. -/
theorem c5_lookup_paths_witness :
    lookupWalletData stockAttrsExample "stock" = [stockWalletExample] ∧
      parse_asset_type [] "EUR" emptyAttrs "STOCK" = (0, []) := by
  refine ⟨(c5_lookup_paths [] "EUR" "STOCK" "stock" stockAttrsExample
      [stockWalletExample]).1 rfl,
    (c5_lookup_paths [] "EUR" "STOCK" "stock" emptyAttrs []).2.2.2.2.2
      (by decide) (by decide) rfl⟩

theorem pyRound2_zero : pyRound2 0 = 0 := by
  norm_num [pyRound2, roundHalfEven]

/-- Claim C6: a positive-balance wallet whose symbol is absent from the
ticker table, or whose symbol entry lacks the target currency, is converted
with price 0: its holding has converted value 0 and an unchanged token
balance, and it still appears in the output of the branch that processes
it. -/
theorem c6_missing_price (tk : Ticker) (target : String) (w : AssetWallet)
    (hmiss : tickerEntry tk w.symbolF target = none) (hbal : 0 < w.balanceF) :
    (mkHoldingInfo tk target w).balance_token = w.balanceF ∧
    (mkHoldingInfo tk target w).balance_converted = 0 ∧
    (∀ ws : List AssetWallet, w ∈ ws →
      mkHoldingInfo tk target w ∈ (parseGenericWallets tk target ws).2) ∧
    (∀ ws : List AssetWallet, w ∈ ws → is_leverage w.symbolF = true →
      mkHoldingInfo tk target w ∈ (parseCryptoWallets tk target "LEVERAGE" ws).2) ∧
    (∀ ws : List AssetWallet, w ∈ ws → is_leverage w.symbolF = false →
      mkHoldingInfo tk target w ∈
        (parseCryptoWallets tk target "CRYPTOCOIN" ws).2) := by
  have hprice : tickerPrice tk w.symbolF target = 0 := by
    simp [tickerPrice, hmiss]
  refine ⟨rfl, ?_, ?_, ?_, ?_⟩
  · simp [mkHoldingInfo, hprice, pyRound2_zero]
  · intro ws hw
    rw [parseGenericWallets_eq]
    exact List.mem_map_of_mem _
      (List.mem_filter.mpr ⟨hw, by simp [keepGeneric, hbal]⟩)
  · intro ws hw hlev
    rw [parseCryptoWallets_eq]
    refine List.mem_map_of_mem _ (List.mem_filter.mpr ⟨hw, ?_⟩)
    rw [keepCrypto_leverage]
    simp [hbal, hlev]
  · intro ws hw hlev
    rw [parseCryptoWallets_eq]
    refine List.mem_map_of_mem _ (List.mem_filter.mpr ⟨hw, ?_⟩)
    rw [keepCrypto_cryptocoin]
    simp [hbal, hlev]

/-- An ordinary crypto wallet whose symbol has no ticker entry. -/
def unpricedWalletExample : AssetWallet :=
  { balance := some (2 : ℚ), cryptocoin_symbol := some "FOO", name := some "Foo" }

/-- Witness for `c6_missing_price` at a concrete input. -/
theorem c6_missing_price_witness :
    (mkHoldingInfo [] "EUR" unpricedWalletExample).balance_token = 2 ∧
    (mkHoldingInfo [] "EUR" unpricedWalletExample).balance_converted = 0 ∧
    mkHoldingInfo [] "EUR" unpricedWalletExample ∈
      (parseCryptoWallets [] "EUR" "CRYPTOCOIN" [unpricedWalletExample]).2 := by
  have h := c6_missing_price [] "EUR" unpricedWalletExample rfl (by decide)
  exact ⟨h.1, h.2.1,
    h.2.2.2.2 [unpricedWalletExample] (List.mem_cons_self _ _) (by decide)⟩

/-- Claim C7: wallets with `balance <= 0` (a zero, negative or missing
balance) are omitted from both parse branches — removing them from the input
changes nothing — and every emitted holding has a positive token balance, so
such wallets contribute nothing to the total. -/
theorem c7_nonpositive_excluded (tk : Ticker) (target wallet_type : String)
    (ws : List AssetWallet) :
    parseGenericWallets tk target ws =
      parseGenericWallets tk target (ws.filter keepGeneric) ∧
    parseCryptoWallets tk target wallet_type ws =
      parseCryptoWallets tk target wallet_type (ws.filter keepGeneric) ∧
    (∀ hd ∈ (parseGenericWallets tk target ws).2, 0 < hd.balance_token) ∧
    (∀ hd ∈ (parseCryptoWallets tk target wallet_type ws).2,
      0 < hd.balance_token) := by
  have hgen : ∀ a : AssetWallet, (keepGeneric a && keepGeneric a) = keepGeneric a := by
    intro a
    exact Bool.and_self _
  have hcr : ∀ a : AssetWallet,
      (keepCrypto wallet_type a && keepGeneric a) = keepCrypto wallet_type a := by
    intro a
    by_cases hb : 0 < a.balanceF <;> simp [keepGeneric, keepCrypto, hb]
  refine ⟨?_, ?_, ?_, ?_⟩
  · rw [parseGenericWallets_eq, parseGenericWallets_eq, List.filter_filter]
    simp only [hgen]
  · rw [parseCryptoWallets_eq, parseCryptoWallets_eq, List.filter_filter]
    simp only [hcr]
  · intro hd hmem
    rw [parseGenericWallets_eq] at hmem
    obtain ⟨a, ha, rfl⟩ := List.mem_map.mp hmem
    have := (List.mem_filter.mp ha).2
    simpa [keepGeneric, mkHoldingInfo] using this
  · intro hd hmem
    rw [parseCryptoWallets_eq] at hmem
    obtain ⟨a, ha, rfl⟩ := List.mem_map.mp hmem
    have := (List.mem_filter.mp ha).2
    simp only [keepCrypto, Bool.and_eq_true, decide_eq_true_eq] at this
    simpa [mkHoldingInfo] using this.1

/-- A wallet with balance 0. -/
def zeroWalletExample : AssetWallet :=
  { balance := some (0 : ℚ), cryptocoin_symbol := some "BTC", name := some "Zero" }

/-- Witness for `c7_nonpositive_excluded` at concrete inputs: a zero-balance
wallet produces no holding and no total, and an emitted holding has a
positive token balance. -/
theorem c7_nonpositive_excluded_witness :
    parseGenericWallets [] "EUR" [zeroWalletExample] = (0, []) ∧
      0 < (mkHoldingInfo [] "EUR" unpricedWalletExample).balance_token := by
  have h := c7_nonpositive_excluded [] "EUR" "CRYPTOCOIN" [zeroWalletExample]
  have h2 := (c7_nonpositive_excluded [] "EUR" "CRYPTOCOIN"
      [unpricedWalletExample]).2.2.1
    (mkHoldingInfo [] "EUR" unpricedWalletExample)
    (by
      rw [parseGenericWallets_eq]
      exact List.mem_map_of_mem _
        (List.mem_filter.mpr ⟨List.mem_cons_self _ _, by decide⟩))
  refine ⟨?_, h2⟩
  rw [h.1]
  rfl

/-- The ticker of the worked example of C9. -/
def tickerExample : Ticker := [("BTC", [("EUR", (50000 : ℚ))])]

/-- The wallet of the worked example of C9. -/
def btcWalletExample : AssetWallet :=
  { balance := some (0.5 : ℚ), cryptocoin_symbol := some "BTC",
    name := some "Bitcoin" }

/-- Claim C9: the per-holding converted value is the token balance times the
ticker price, rounded to 2 decimal places, while the category total sums the
unrounded products; the ticker `BTC -> EUR -> 50000` with a wallet of balance
0.5 yields a holding with converted value 25000.00. -/
theorem c9_conversion (tk : Ticker) (target : String) (ws : List AssetWallet)
    (w : AssetWallet) :
    (mkHoldingInfo tk target w).balance_converted =
      pyRound2 (w.balanceF * tickerPrice tk w.symbolF target) ∧
    (parseGenericWallets tk target ws).1 =
      ((ws.filter keepGeneric).map (convValue tk target)).sum ∧
    (parseCryptoWallets tk target "CRYPTOCOIN" ws).1 =
      ((ws.filter (keepCrypto "CRYPTOCOIN")).map (convValue tk target)).sum ∧
    (mkHoldingInfo tickerExample "EUR" btcWalletExample).balance_converted =
      25000 := by
  refine ⟨rfl, ?_, ?_, ?_⟩
  · rw [parseGenericWallets_eq]
  · rw [parseCryptoWallets_eq]
  · norm_num [mkHoldingInfo, tickerExample, btcWalletExample, tickerPrice,
      tickerEntry, AssetWallet.balanceF, AssetWallet.symbolF, pyRound2,
      roundHalfEven, List.lookup]

/-! ## Claims about the poll cycle (C3, C8) -/

/-- Claim C3: when any attempted fetch of a cycle fails, `_async_update_data`
raises `UpdateFailed` instead of returning data, the coordinator keeps the
previously published data unchanged, and `next_update` is still advanced to
`now + interval`; the `next_update` advance happens on success and failure
alike. -/
theorem c3_failure_isolation (st : CoordState) (currency : String)
    (selected : List String) (r : FetchResults) (now interval : ℕ)
    (hfail :
      (∃ e, r.ticker = .error e) ∨
      (¬ (selectedAssetTypes selected).isEmpty = true ∧
        ∃ e, r.assets = .error e) ∨
      ("FIAT" ∈ selected ∧ ∃ e, r.fiat = .error e)) :
    (∃ e, updateData currency selected r now = .error (.updateFailed e)) ∧
    (coordinatorStep st currency selected r now interval).data = st.data ∧
    (coordinatorStep st currency selected r now interval).next_update =
      now + interval ∧
    (∀ (st' : CoordState) (r' : FetchResults),
      (coordinatorStep st' currency selected r' now interval).next_update =
        now + interval) := by
  have herr : ∃ e, updateData currency selected r now = .error (.updateFailed e) := by
    rcases hfail with ⟨e, he⟩ | ⟨hne, e, he⟩ | ⟨hf, e, he⟩
    · exact ⟨e, by simp [updateData, he]⟩
    · cases ht : r.ticker with
      | error e2 => exact ⟨e2, by simp [updateData, ht]⟩
      | ok tk => exact ⟨e, by simp [updateData, ht, hne, he]⟩
    · cases ht : r.ticker with
      | error e2 => exact ⟨e2, by simp [updateData, ht]⟩
      | ok tk =>
        by_cases hne : (selectedAssetTypes selected).isEmpty = true
        · exact ⟨e, by simp [updateData, ht, hne, hf, he]⟩
        · cases ha : r.assets with
          | error e3 => exact ⟨e3, by simp [updateData, ht, hne, ha]⟩
          | ok attrs => exact ⟨e, by simp [updateData, ht, hne, ha, hf, he]⟩
  obtain ⟨e, he⟩ := herr
  refine ⟨⟨e, he⟩, ?_, ?_, ?_⟩
  · simp [coordinatorStep, he]
  · simp [coordinatorStep, he]
  · intro st' r'
    cases h' : updateData currency selected r' now <;> simp [coordinatorStep, h']

/-- A coordinator state with a previously published snapshot. -/
def priorStateExample : CoordState :=
  { data := some { categories := [], last_updated := 0 }, next_update := 7 }

/-- Fetch results where the fiat fetch fails with a transport error. -/
def fiatFailFetchExample : FetchResults :=
  { ticker := .ok [], assets := .ok emptyAttrs,
    fiat := .error FetchError.transport }

/-- Witness for `c3_failure_isolation` at a concrete input. -/
theorem c3_failure_isolation_witness :
    (coordinatorStep priorStateExample "EUR" ["FIAT"] fiatFailFetchExample
        10 5).data = priorStateExample.data ∧
      (coordinatorStep priorStateExample "EUR" ["FIAT"] fiatFailFetchExample
        10 5).next_update = 15 := by
  have h := c3_failure_isolation priorStateExample "EUR" ["FIAT"]
    fiatFailFetchExample 10 5
    (Or.inr (Or.inr ⟨by decide, FetchError.transport, rfl⟩))
  exact ⟨h.2.1, h.2.2.1⟩

theorem map_fst_pairing (f : String → CategoryOut) (l : List String) :
    (l.map fun wt => (wt, f wt)).map Prod.fst = l := by
  induction l with
  | nil => rfl
  | cons a l ih => simp [ih]

/-- On success, the per-category entries are one entry per selected asset
type, plus a `FIAT` entry exactly when `FIAT` is selected. -/
theorem updateData_ok_categories (currency : String) (selected : List String)
    (r : FetchResults) (now : ℕ) (d : SnapshotData)
    (hok : updateData currency selected r now = .ok d) :
    ∃ (f : String → CategoryOut) (g : CategoryOut),
      d.categories =
        ((selectedAssetTypes selected).map fun wt => (wt, f wt)) ++
          (if "FIAT" ∈ selected then [("FIAT", g)] else []) := by
  cases ht : r.ticker with
  | error e =>
    rw [updateData, ht] at hok
    exact absurd hok (by simp)
  | ok tk =>
    rw [updateData, ht] at hok
    by_cases hse : (selectedAssetTypes selected).isEmpty = true
    · have hsa : selectedAssetTypes selected = [] := List.isEmpty_iff.mp hse
      rw [hsa] at hok ⊢
      simp only [List.isEmpty_nil, if_true] at hok
      by_cases hf : "FIAT" ∈ selected
      · cases hfi : r.fiat with
        | error e =>
          rw [hfi] at hok
          simp [hf] at hok
        | ok fw =>
          rw [hfi] at hok
          simp only [hf, if_true] at hok
          refine ⟨fun _ => { total_balance := 0, wallets := [] },
            fiatCategoryOut currency fw, ?_⟩
          cases hok
          simp [hf]
      · simp only [hf, if_false] at hok
        refine ⟨fun _ => { total_balance := 0, wallets := [] },
          { total_balance := 0, wallets := [] }, ?_⟩
        cases hok
        simp [hf]
    · simp only [hse, if_false] at hok
      cases ha : r.assets with
      | error e =>
        rw [ha] at hok
        exact absurd hok (by simp)
      | ok attrs =>
        rw [ha] at hok
        simp only at hok
        by_cases hf : "FIAT" ∈ selected
        · cases hfi : r.fiat with
          | error e =>
            rw [hfi] at hok
            simp [hf] at hok
          | ok fw =>
            rw [hfi] at hok
            simp only [hf, if_true] at hok
            refine ⟨fun wt =>
              { total_balance := (parse_asset_type tk currency attrs wt).1,
                wallets := (parse_asset_type tk currency attrs wt).2 },
              fiatCategoryOut currency fw, ?_⟩
            cases hok
            simp [hf]
        · simp only [hf, if_false] at hok
          refine ⟨fun wt =>
            { total_balance := (parse_asset_type tk currency attrs wt).1,
              wallets := (parse_asset_type tk currency attrs wt).2 },
            { total_balance := 0, wallets := [] }, ?_⟩
          cases hok
          simp [hf]

/-- Claim C8: a successful cycle produces data whose category keys are
exactly the selected categories, each occurring once, provided the selection
is drawn from the configured wallet types. -/
theorem c8_snapshot_keys (currency : String) (selected : List String)
    (r : FetchResults) (now : ℕ) (d : SnapshotData)
    (hsub : ∀ c ∈ selected, c ∈ walletTypeKeys)
    (hok : updateData currency selected r now = .ok d) :
    (d.categories.map Prod.fst).Nodup ∧
    (∀ c, c ∈ d.categories.map Prod.fst ↔ c ∈ selected) := by
  obtain ⟨f, g, hcat⟩ := updateData_ok_categories currency selected r now d hok
  have hcases : ∀ c ∈ selected, c = "FIAT" ∨ assetTypes.contains c = true := by
    intro c hc
    have h := hsub c hc
    simp only [walletTypeKeys, List.mem_cons, List.not_mem_nil, or_false] at h
    rcases h with rfl | rfl | rfl | rfl | rfl | rfl | rfl | rfl
    · exact Or.inl rfl
    all_goals exact Or.inr (by decide)
  have hsel_of_sa : ∀ c ∈ selectedAssetTypes selected, c ∈ selected := by
    intro c hc
    rw [selectedAssetTypes, List.mem_dedup, List.mem_filter] at hc
    exact hc.1
  have hsa_of : ∀ c ∈ selected, assetTypes.contains c = true →
      c ∈ selectedAssetTypes selected := by
    intro c hc hat
    rw [selectedAssetTypes, List.mem_dedup, List.mem_filter]
    exact ⟨hc, hat⟩
  have hnofiat : "FIAT" ∉ selectedAssetTypes selected := by
    intro hmem
    rw [selectedAssetTypes, List.mem_dedup, List.mem_filter] at hmem
    exact absurd hmem.2 (by decide)
  have hkeys : d.categories.map Prod.fst =
      selectedAssetTypes selected ++
        (if "FIAT" ∈ selected then ["FIAT"] else []) := by
    rw [hcat, List.map_append, map_fst_pairing]
    by_cases hf : "FIAT" ∈ selected <;> simp [hf]
  constructor
  · rw [hkeys, List.nodup_append]
    refine ⟨List.nodup_dedup _, ?_, ?_⟩
    · by_cases hf : "FIAT" ∈ selected <;> simp [hf]
    · intro c hc1 hc2
      by_cases hf : "FIAT" ∈ selected
      · simp only [hf, if_true, List.mem_singleton] at hc2
        subst hc2
        exact hnofiat hc1
      · simp [hf] at hc2
  · intro c
    rw [hkeys, List.mem_append]
    constructor
    · rintro (hc | hc)
      · exact hsel_of_sa c hc
      · by_cases hf : "FIAT" ∈ selected
        · simp only [hf, if_true, List.mem_singleton] at hc
          subst hc
          exact hf
        · simp [hf] at hc
    · intro hc
      rcases hcases c hc with rfl | hat
      · right
        simp [hc]
      · left
        exact hsa_of c hc hat

/-- Fetch results where every fetch succeeds with an empty body. -/
def allOkFetchExample : FetchResults :=
  { ticker := .ok [], assets := .ok emptyAttrs, fiat := .ok [] }

/-- The data produced by selecting FIAT and STOCK on empty response bodies. -/
def fiatStockDataExample : SnapshotData :=
  { categories := [("STOCK", { total_balance := 0, wallets := [] }),
      ("FIAT", { total_balance := 0, wallets := [] })],
    last_updated := 0 }

/-- Witness for `c8_snapshot_keys`: selecting FIAT and STOCK yields exactly
those two category keys. -/
theorem c8_snapshot_keys_witness :
    updateData "EUR" ["FIAT", "STOCK"] allOkFetchExample 0 =
        .ok fiatStockDataExample ∧
      (fiatStockDataExample.categories.map Prod.fst).Nodup ∧
      ("FIAT" ∈ fiatStockDataExample.categories.map Prod.fst ↔
        "FIAT" ∈ ["FIAT", "STOCK"]) ∧
      ("STOCK" ∈ fiatStockDataExample.categories.map Prod.fst ↔
        "STOCK" ∈ ["FIAT", "STOCK"]) ∧
      ("ETF" ∈ fiatStockDataExample.categories.map Prod.fst ↔
        "ETF" ∈ ["FIAT", "STOCK"]) := by
  have hok : updateData "EUR" ["FIAT", "STOCK"] allOkFetchExample 0 =
      .ok fiatStockDataExample := by rfl
  have h := c8_snapshot_keys "EUR" ["FIAT", "STOCK"] allOkFetchExample 0
    fiatStockDataExample (by decide) hok
  exact ⟨hok, h.1, h.2 "FIAT", h.2 "STOCK", h.2 "ETF"⟩

end BitpandaWallets
